import Mathlib

/-!
Verification of the PenPreserve synchronization and recovery engine against
its natural-language specification.  The definitions below are a shallow
embedding of the Python source: timestamps are naturals, the relational
store is a record of row lists, and the stateful handlers are explicit
state-passing functions.  Fetch failures during history iteration are
represented by a `none` entry in the event stream.
-/

namespace PenPreserve

/-! ## Reconnect supervision (src/utils/reconnect_manager.py) -/

/-- State of `ReconnectManager`: configured limits plus the running retry
counter (`current_retries`). -/
structure ReconnectManager where
  max_retries : Nat
  base_delay : Nat
  current_retries : Nat
  deriving Repr, DecidableEq

/-- `ReconnectManager._handle_reconnect`: increments the retry counter,
raises (`Except.error`) once the counter exceeds `max_retries`, otherwise
computes the exponential-backoff delay `min(base * 2^(retries-1), 300)`
and returns it with the updated state. -/
def handle_reconnect (r : ReconnectManager) : Except String (Nat × ReconnectManager) :=
  let retries := r.current_retries + 1
  if retries > r.max_retries then
    Except.error "too many reconnect failures"
  else
    Except.ok (min (r.base_delay * 2 ^ (retries - 1)) 300,
      { r with current_retries := retries })

/-- `ReconnectManager.reset_retry_count`: called from `on_connect` /
`on_resumed`; sets the counter back to zero. -/
def reset_retry_count (r : ReconnectManager) : ReconnectManager :=
  { r with current_retries := 0 }

/-- Delays produced by `n` consecutive connection-loss events, each handled
by `_handle_reconnect`; an error aborts the sequence. -/
def consecutive_delays (r : ReconnectManager) : Nat → Except String (List Nat)
  | 0 => Except.ok []
  | n + 1 =>
    match handle_reconnect r with
    | Except.error e => Except.error e
    | Except.ok (d, r') =>
      match consecutive_delays r' n with
      | Except.error e => Except.error e
      | Except.ok ds => Except.ok (d :: ds)

/-! ## Export packaging (src/commands/backup_utils.py, backup_operations.py)

Only byte sizes matter for the packaging bound, so attachments are modelled
by their sizes and a volume by the list of payload sizes it carries. -/

/-- First-volume packing loop of `create_multi_volume_backup`: starting from
`cur` (the manifest size), keep the next attachment unless adding it would
exceed `max_size` *and* at least one attachment is already present
(`cur > info_size`).  Returns the selected sizes and the remainder. -/
def pack_vol1 (max_size info_size : Nat) : List Nat → Nat → List Nat × List Nat
  | [], _ => ([], [])
  | s :: rest, cur =>
    if cur + s > max_size ∧ cur > info_size then
      ([], s :: rest)
    else
      (s :: (pack_vol1 max_size info_size rest (cur + s)).1,
        (pack_vol1 max_size info_size rest (cur + s)).2)

/-- Subsequent-volume packing loop of `create_multi_volume_backup`: same
greedy rule with the guard `cur > 0` in place of `cur > info_size`. -/
def pack_next (max_size : Nat) : List Nat → Nat → List Nat × List Nat
  | [], _ => ([], [])
  | s :: rest, cur =>
    if cur + s > max_size ∧ cur > 0 then
      ([], s :: rest)
    else
      (s :: (pack_next max_size rest (cur + s)).1,
        (pack_next max_size rest (cur + s)).2)

theorem pack_next_length (max_size : Nat) (l : List Nat) (cur : Nat) :
    (pack_next max_size l cur).2.length ≤ l.length := by
  induction l generalizing cur with
  | nil => simp [pack_next]
  | cons s rest ih =>
    simp only [pack_next]
    split
    · simp
    · have h := ih (cur + s)
      simp only [List.length_cons]
      omega

/-- The `while attachment_index < len(attachment_data)` loop of
`create_multi_volume_backup`, written with structural fuel (each round
places at least one attachment, so `fuel = length` suffices): repeatedly
opens a fresh volume and fills it with `pack_next` until every attachment
is placed. -/
def pack_volumes_fuel (max_size : Nat) : Nat → List Nat → List (List Nat)
  | 0, _ => []
  | _, [] => []
  | fuel + 1, s :: rest =>
    (s :: (pack_next max_size rest s).1) ::
      pack_volumes_fuel max_size fuel (pack_next max_size rest s).2

/-- The subsequent-volume loop at its actual fuel. -/
def pack_volumes (max_size : Nat) (l : List Nat) : List (List Nat) :=
  pack_volumes_fuel max_size l.length l

/-- `BackupUtils.create_multi_volume_backup` reduced to payload sizes:
volume 1 carries the manifest (`info_size`) plus a greedy prefix of the
attachments; the rest are packed into further volumes. -/
def create_multi_volume_backup (info_size max_size : Nat) (atts : List Nat) :
    List (List Nat) :=
  (info_size :: (pack_vol1 max_size info_size atts info_size).1) ::
    pack_volumes max_size (pack_vol1 max_size info_size atts info_size).2

/-- `BackupOperations.create_backup_package`: a single volume when the
manifest plus all attachments fit under `max_size`, else the multi-volume
packer. -/
def create_backup_package (info_size max_size : Nat) (atts : List Nat) :
    List (List Nat) :=
  if info_size + atts.sum ≤ max_size then
    [info_size :: atts]
  else
    create_multi_volume_backup info_size max_size atts

/-! ## Data model (src/database/models.py)

Timestamps are naturals (the code stores ISO-8601 strings whose SQL
ordering agrees with chronological order). -/

/-- Row of `backup_configs`. -/
structure BackupConfig where
  id : Nat
  guild_id : Nat
  channel_id : Nat
  thread_id : Option Nat
  author_id : Nat
  title : Option String
  enabled : Bool
  created_at : Nat
  last_check_time : Option Nat
  deriving Repr, DecidableEq

/-- Row of `message_backups` (`message_id` carries a UNIQUE constraint). -/
structure MessageBackup where
  id : Nat
  config_id : Nat
  message_id : Nat
  content : String
  created_at : Nat
  backup_time : Nat
  content_type : String
  deriving Repr, DecidableEq

/-- Row of `file_backups`. -/
structure FileBackup where
  id : Nat
  message_backup_id : Nat
  original_filename : String
  stored_filename : String
  file_size : Nat
  file_url : String
  webdav_path : String
  backup_time : Nat
  deriving Repr, DecidableEq

/-- The relational store: the three tables, the `bot_status` activity
timestamp, and the AUTOINCREMENT counters. -/
structure DB where
  backup_configs : List BackupConfig
  message_backups : List MessageBackup
  file_backups : List FileBackup
  last_activity_time : Option Nat
  next_config_id : Nat
  next_message_backup_id : Nat
  next_file_backup_id : Nat
  deriving Repr, DecidableEq

/-- Whether a `backup_configs` row matches the (guild, channel, thread,
author) identity used by the `WHERE` clauses of models.py (the `thread_id =
? OR (thread_id IS NULL AND ? IS NULL)` pattern is plain `Option`
equality). -/
def matches_identity (c : BackupConfig) (guild_id channel_id : Nat)
    (thread_id : Option Nat) (author_id : Nat) : Bool :=
  c.guild_id == guild_id && c.channel_id == channel_id &&
    c.thread_id == thread_id && c.author_id == author_id

/-- `DatabaseManager.get_backup_config`: first enabled row matching the
identity. -/
def get_backup_config (db : DB) (guild_id channel_id : Nat)
    (thread_id : Option Nat) (author_id : Nat) : Option BackupConfig :=
  db.backup_configs.find? fun c =>
    matches_identity c guild_id channel_id thread_id author_id && c.enabled

/-- `DatabaseManager.get_all_backup_configs`: every enabled row. -/
def get_all_backup_configs (db : DB) : List BackupConfig :=
  db.backup_configs.filter (·.enabled)

/-- `DatabaseManager.get_message_backup_by_message_id`. -/
def get_message_backup_by_message_id (db : DB) (message_id : Nat) :
    Option MessageBackup :=
  db.message_backups.find? (·.message_id == message_id)

/-- `DatabaseManager.save_message_backup`: `INSERT` into `message_backups`;
the UNIQUE constraint on `message_id` makes a duplicate insert raise, which
the code catches and turns into `None`.  `now` stands for
`CURRENT_TIMESTAMP`. -/
def save_message_backup (db : DB) (config_id message_id : Nat)
    (content : String) (created_at : Nat) (content_type : String) (now : Nat) :
    Option Nat × DB :=
  if db.message_backups.any (·.message_id == message_id) then
    (none, db)
  else
    (some db.next_message_backup_id,
      { db with
        message_backups := db.message_backups ++
          [{ id := db.next_message_backup_id, config_id := config_id,
             message_id := message_id, content := content,
             created_at := created_at, backup_time := now,
             content_type := content_type }]
        next_message_backup_id := db.next_message_backup_id + 1 })

/-- `DatabaseManager.save_file_backup`: plain `INSERT` into `file_backups`
(no uniqueness constraint). -/
def save_file_backup (db : DB) (message_backup_id : Nat)
    (original_filename stored_filename : String) (file_size : Nat)
    (file_url webdav_path : String) (now : Nat) : Option Nat × DB :=
  (some db.next_file_backup_id,
    { db with
      file_backups := db.file_backups ++
        [{ id := db.next_file_backup_id, message_backup_id := message_backup_id,
           original_filename := original_filename,
           stored_filename := stored_filename, file_size := file_size,
           file_url := file_url, webdav_path := webdav_path,
           backup_time := now }]
      next_file_backup_id := db.next_file_backup_id + 1 })

/-- `SELECT MAX(created_at) FROM message_backups WHERE config_id = ?`
(`DatabaseManager.get_latest_message_time`). -/
def get_latest_message_time (db : DB) (config_id : Nat) : Option Nat :=
  match (db.message_backups.filter (·.config_id == config_id)).map
      (·.created_at) with
  | [] => none
  | t :: ts => some (ts.foldl Nat.max t)

/-- `DatabaseManager.update_backup_config_check_time`: sets
`last_check_time = CURRENT_TIMESTAMP` on the row with the given id. -/
def update_backup_config_check_time (db : DB) (config_id now : Nat) : DB :=
  { db with
    backup_configs := db.backup_configs.map fun c =>
      if c.id == config_id then { c with last_check_time := some now } else c }

/-- The `UPDATE backup_configs SET enabled = TRUE, created_at =
CURRENT_TIMESTAMP, title = ? WHERE id = ?` row transformation of
`create_backup_config`. -/
def reenable_row (title : Option String) (now : Nat) (c : BackupConfig) :
    BackupConfig :=
  { c with enabled := true, created_at := now, title := title }

/-- The row the `INSERT INTO backup_configs` branch of
`create_backup_config` produces. -/
def fresh_config_row (id guild_id channel_id : Nat) (thread_id : Option Nat)
    (author_id : Nat) (title : Option String) (now : Nat) : BackupConfig :=
  { id := id, guild_id := guild_id, channel_id := channel_id,
    thread_id := thread_id, author_id := author_id, title := title,
    enabled := true, created_at := now, last_check_time := none }

/-- `DatabaseManager.create_backup_config`: looks the identity up
(regardless of `enabled`); returns the existing id unchanged when enabled,
re-enables (refreshing `created_at` and `title`) when disabled, inserts a
fresh row otherwise. -/
def create_backup_config (db : DB) (guild_id channel_id : Nat)
    (thread_id : Option Nat) (author_id : Nat) (title : Option String)
    (now : Nat) : Option Nat × DB :=
  match db.backup_configs.find? fun c =>
      matches_identity c guild_id channel_id thread_id author_id with
  | some existing =>
    if existing.enabled then
      (some existing.id, db)
    else
      (some existing.id,
        { db with
          backup_configs := db.backup_configs.map fun c =>
            if c.id == existing.id then reenable_row title now c else c })
  | none =>
    (some db.next_config_id,
      { db with
        backup_configs := db.backup_configs ++
          [fresh_config_row db.next_config_id guild_id channel_id thread_id
            author_id title now]
        next_config_id := db.next_config_id + 1 })

/-- `DatabaseManager.disable_backup_config`. -/
def disable_backup_config (db : DB) (config_id : Nat) : DB :=
  { db with
    backup_configs := db.backup_configs.map fun c =>
      if c.id == config_id then { c with enabled := false } else c }

/-- `DatabaseManager.update_last_activity_time`. -/
def update_last_activity_time (db : DB) (t : Nat) : DB :=
  { db with last_activity_time := some t }

/-! ## Message events and the archiver (src/events/message_handler.py) -/

/-- An inbound attachment; `fetch_result` is the outcome of
`FileManager.download_and_upload_attachment` (`none` = download or upload
failed, `some path` = stored WebDAV path). -/
structure Attachment where
  filename : String
  size : Nat
  url : String
  fetch_result : Option String
  deriving Repr, DecidableEq

/-- An inbound platform message.  `channel_id` is the (parent) channel,
`thread_id` is present for thread messages. -/
structure Message where
  id : Nat
  guild_id : Nat
  channel_id : Nat
  thread_id : Option Nat
  author_id : Nat
  author_is_bot : Bool
  content : String
  created_at : Nat
  attachments : List Attachment
  deriving Repr, DecidableEq

/-- `content_type` string the handler derives from the channel kind. -/
def message_content_type (msg : Message) : String :=
  match msg.thread_id with
  | some _ => "thread"
  | none => "channel"

/-- `MessageHandler.process_attachment`: on a successful fetch, records a
`file_backups` row; a failed fetch is skipped (logged) and reported as
`false`. -/
def process_attachment (db : DB) (att : Attachment)
    (message_backup_id : Nat) (now : Nat) : Bool × DB :=
  match att.fetch_result with
  | none => (false, db)
  | some path =>
    match save_file_backup db message_backup_id att.filename path att.size
        att.url path now with
    | (some _, db') => (true, db')
    | (none, db') => (false, db')

/-- Attachment loop of `MessageHandler.process_message_backup`. -/
def process_attachments (db : DB) (atts : List Attachment)
    (message_backup_id : Nat) (now : Nat) : DB :=
  match atts with
  | [] => db
  | att :: rest =>
    process_attachments (process_attachment db att message_backup_id now).2
      rest message_backup_id now

/-- `MessageHandler.process_message_backup`: inserts the message row; a
failed insert (duplicate `message_id`) yields `false`; otherwise the
attachments are processed one by one, each failure isolated. -/
def process_message_backup (db : DB) (msg : Message) (config_id : Nat)
    (content_type : String) (now : Nat) : Bool × DB :=
  match save_message_backup db config_id msg.id msg.content msg.created_at
      content_type now with
  | (none, db') => (false, db')
  | (some mbid, db') => (true, process_attachments db' msg.attachments mbid now)

/-- `MessageHandler.handle_message`: bot messages ignored; without an
enabled config for the message's (location, author) nothing happens; an
already-archived `message_id` is skipped; otherwise the message is backed
up and the activity timestamp refreshed. -/
def handle_message (db : DB) (msg : Message) (now : Nat) : DB :=
  if msg.author_is_bot then db
  else
    match get_backup_config db msg.guild_id msg.channel_id msg.thread_id
        msg.author_id with
    | none => db
    | some cfg =>
      match get_message_backup_by_message_id db msg.id with
      | some _ => db
      | none =>
        update_last_activity_time
          (process_message_backup db msg cfg.id (message_content_type msg)
            now).2 now

/-- `MessageHandler.update_message_backup_content`: `UPDATE message_backups
SET content = ?, backup_time = CURRENT_TIMESTAMP WHERE message_id = ?`. -/
def update_message_backup_content (db : DB) (message_id : Nat)
    (new_content : String) (now : Nat) : DB :=
  { db with
    message_backups := db.message_backups.map fun m =>
      if m.message_id == message_id then
        { m with content := new_content, backup_time := now }
      else m }

/-- `MessageHandler.handle_message_edit`: bot authors and unchanged content
are ignored; without an enabled config nothing happens; an unarchived
message is handled as a new message; an archived one gets only its content
and backup time updated. -/
def handle_message_edit (db : DB) (before_content : String) (msg : Message)
    (now : Nat) : DB :=
  if msg.author_is_bot then db
  else if before_content == msg.content then db
  else
    match get_backup_config db msg.guild_id msg.channel_id msg.thread_id
        msg.author_id with
    | none => db
    | some _ =>
      match get_message_backup_by_message_id db msg.id with
      | none => handle_message db msg now
      | some _ =>
        update_last_activity_time
          (update_message_backup_content db msg.id msg.content now) now

/-! ## History scanning (MessageHandler.scan_history)

The content source is a `Location`: resolution flags for the guild /
channel / thread lookups plus the location's full history, oldest first.
A `none` entry stands for a fetch failure raised while iterating — the
surrounding `try` of `scan_history` catches it and returns `(0, 0)`. -/

/-- A scan target as `scan_history` resolves it. -/
structure Location where
  guild_ok : Bool
  channel_ok : Bool
  thread_ok : Bool
  history : List (Option Message)
  deriving Repr, DecidableEq

/-- Thread pre-count loop of `scan_history`: counts fetched messages,
aborting with `some true` as soon as the count exceeds 10000; a fetch
failure (`none` entry) raises, modelled by `none`. -/
def count_loop : List (Option Message) → Nat → Option Bool
  | [], _ => some false
  | none :: _, _ => none
  | some _ :: rest, n =>
    if n + 1 > 10000 then some true else count_loop rest (n + 1)

/-- Main loop of `scan_history` over the oldest-first stream.  Messages at
or before `start_time` are outside the `after=` window; other authors and
bots are skipped; already-archived ids are counted but not re-inserted;
the per-message downloaded-file counter adds the attachment count whenever
the list is non-empty.  A fetch failure aborts with `none`, keeping the
rows already inserted. -/
def scan_loop (db : DB) (events : List (Option Message))
    (author_id config_id : Nat) (content_type : String)
    (start_time : Option Nat) (now : Nat) (scanned downloaded : Nat) :
    Option (Nat × Nat) × DB :=
  match events with
  | [] => (some (scanned, downloaded), db)
  | none :: _ => (none, db)
  | some m :: rest =>
    if (match start_time with
        | some st => decide (m.created_at ≤ st)
        | none => false) then
      scan_loop db rest author_id config_id content_type start_time now
        scanned downloaded
    else if m.author_id != author_id || m.author_is_bot then
      scan_loop db rest author_id config_id content_type start_time now
        scanned downloaded
    else if (get_message_backup_by_message_id db m.id).isSome then
      scan_loop db rest author_id config_id content_type start_time now
        (scanned + 1) downloaded
    else
      scan_loop (process_message_backup db m config_id content_type now).2
        rest author_id config_id content_type start_time now (scanned + 1)
        (if m.attachments.isEmpty then downloaded
         else downloaded + m.attachments.length)

/-- `MessageHandler.scan_history`: location resolution failures and the
thread >10000-message guard return `(0, 0)` untouched; a completed scan
finally advances the config's `last_check_time` to `now`, the scan's own
completion timestamp; a mid-scan fetch failure returns `(0, 0)` without
advancing it. -/
def scan_history (db : DB) (loc : Location) (thread_id : Option Nat)
    (author_id config_id : Nat) (start_time : Option Nat) (now : Nat) :
    (Nat × Nat) × DB :=
  if !loc.guild_ok then ((0, 0), db)
  else
    match thread_id with
    | some _ =>
      if !loc.channel_ok then ((0, 0), db)
      else if !loc.thread_ok then ((0, 0), db)
      else
        match count_loop loc.history 0 with
        | none => ((0, 0), db)
        | some true => ((0, 0), db)
        | some false =>
          match scan_loop db loc.history author_id config_id "thread"
              start_time now 0 0 with
          | (none, db') => ((0, 0), db')
          | (some counts, db') =>
            (counts, update_backup_config_check_time db' config_id now)
    | none =>
      if !loc.channel_ok then ((0, 0), db)
      else
        match scan_loop db loc.history author_id config_id "channel"
            start_time now 0 0 with
        | (none, db') => ((0, 0), db')
        | (some counts, db') =>
          (counts, update_backup_config_check_time db' config_id now)

/-! ## Downtime recovery (src/core/bot.py) -/

/-- The resume point `recover_single_config` computes: the latest
`created_at` among the config's `message_backups` rows when one exists
(`get_latest_message_time`), else the recorded last activity time. -/
def recovery_resume_point (db : DB) (config_id last_activity : Nat) : Nat :=
  match get_latest_message_time db config_id with
  | some t => t
  | none => last_activity

/-- Modelled from the spec: the per-config resume point as §4.5 states it,
`max(config.last_check_time, T_last)` (with `T_last` alone when the
checkpoint is null).  Kept only to compare with the source-derived
`recovery_resume_point`. -/
def claimed_resume_point (cfg : BackupConfig) (t_last : Nat) : Nat :=
  match cfg.last_check_time with
  | some t => Nat.max t t_last
  | none => t_last

/-- `DiscordBot.recover_single_config`: computes the resume point and runs
`scan_history` from it.  Every internal failure is caught (the scan itself
swallows its errors), so the task's result is always `Except.ok true` —
mirroring `asyncio.gather`'s collected value. -/
def recover_single_config (db : DB) (cfg : BackupConfig) (loc : Location)
    (last_activity now : Nat) : Except Unit Bool × DB :=
  let resume := recovery_resume_point db cfg.id last_activity
  let r := scan_history db loc cfg.thread_id cfg.author_id cfg.id
    (some resume) now
  (Except.ok true, r.2)

/-- The recovery fan-out over the enabled configs, collected results
threaded with the store (per-config records are disjoint, so the
cooperative interleaving is equivalent to this sequential fold).  `env`
resolves a config id to its location. -/
def run_recovery_tasks (db : DB) (configs : List BackupConfig)
    (env : Nat → Location) (last_activity now : Nat) :
    List (Except Unit Bool) × DB :=
  match configs with
  | [] => ([], db)
  | cfg :: rest =>
    let r := recover_single_config db cfg (env cfg.id) last_activity now
    let rs := run_recovery_tasks r.2 rest env last_activity now
    (r.1 :: rs.1, rs.2)

/-- The aggregate `handle_downtime_recovery` logs: the number of results
that are not exceptions, out of the total. -/
def recovery_success_count (results : List (Except Unit Bool)) : Nat :=
  (results.filter fun r =>
    match r with
    | Except.ok _ => true
    | Except.error _ => false).length

/-- `DiscordBot.handle_downtime_recovery`: skips when no activity record
exists or the offline window is under 300 seconds or there is no config;
otherwise fans out over every enabled config and reports
(success count, total). -/
def handle_downtime_recovery (db : DB) (env : Nat → Location) :
    Option Nat → Nat → Nat → Option (Nat × Nat) × DB
  | none, _, _ => (none, db)
  | some t, startup, now =>
    if startup - t < 300 then (none, db)
    else
      let configs := get_all_backup_configs db
      if configs.isEmpty then (none, db)
      else
        let r := run_recovery_tasks db configs env t now
        (some (recovery_success_count r.1, configs.length), r.2)

/-! ## ConfigStore operation sequences (for the idempotence claim) -/

/-- An operation against the config store: `create` carries the identity,
title and the `CURRENT_TIMESTAMP` of the call; `disable` carries a row
id. -/
inductive CfgOp where
  | create (guild_id channel_id : Nat) (thread_id : Option Nat)
      (author_id : Nat) (title : Option String) (now : Nat)
  | disable (config_id : Nat)
  deriving Repr, DecidableEq

/-- Applies one config-store operation. -/
def apply_cfg_op (db : DB) : CfgOp → DB
  | CfgOp.create g c t a title now => (create_backup_config db g c t a title now).2
  | CfgOp.disable cid => disable_backup_config db cid

/-- Applies a sequence of config-store operations. -/
def apply_cfg_ops (db : DB) (ops : List CfgOp) : DB :=
  ops.foldl apply_cfg_op db

/-- Two config rows share their identity tuple. -/
def same_identity (c c' : BackupConfig) : Bool :=
  matches_identity c' c.guild_id c.channel_id c.thread_id c.author_id

/-- At most one `backup_configs` row per identity tuple. -/
def unique_identity_rows (db : DB) : Prop :=
  db.backup_configs.Pairwise fun c c' => ¬ same_identity c c'

/-- At most one *enabled* row per identity tuple (the spec's guarantee). -/
def unique_enabled_rows (db : DB) : Prop :=
  (db.backup_configs.filter (·.enabled)).Pairwise fun c c' =>
    ¬ same_identity c c'

/-- The empty store `init_db` creates. -/
def empty_db : DB :=
  { backup_configs := [], message_backups := [], file_backups := [],
    last_activity_time := none, next_config_id := 1,
    next_message_backup_id := 1, next_file_backup_id := 1 }

/-! ## Lemmas about the packers -/

theorem pack_vol1_append (max_size info_size : Nat) (l : List Nat) (cur : Nat) :
    (pack_vol1 max_size info_size l cur).1 ++
      (pack_vol1 max_size info_size l cur).2 = l := by
  induction l generalizing cur with
  | nil => simp [pack_vol1]
  | cons s rest ih =>
    simp only [pack_vol1]
    split
    · simp
    · simp [ih]

theorem pack_next_append (max_size : Nat) (l : List Nat) (cur : Nat) :
    (pack_next max_size l cur).1 ++ (pack_next max_size l cur).2 = l := by
  induction l generalizing cur with
  | nil => simp [pack_next]
  | cons s rest ih =>
    simp only [pack_next]
    split
    · simp
    · simp [ih]

theorem pack_vol1_sum (max_size info_size : Nat) (l : List Nat) (cur : Nat)
    (hlo : info_size ≤ cur) (hhi : cur ≤ max_size)
    (hfit : ∀ s ∈ l, info_size + s ≤ max_size) :
    cur + (pack_vol1 max_size info_size l cur).1.sum ≤ max_size := by
  induction l generalizing cur with
  | nil => simpa [pack_vol1]
  | cons s rest ih =>
    simp only [pack_vol1]
    split
    · simpa
    · rename_i hguard
      have hs : info_size + s ≤ max_size := hfit s (by simp)
      have hcur : cur + s ≤ max_size := by
        rcases Nat.lt_or_ge info_size cur with h | h
        · rcases le_or_lt (cur + s) max_size with h' | h'
          · exact h'
          · exact absurd ⟨h', h⟩ hguard
        · have : cur = info_size := Nat.le_antisymm h hlo
          omega
      have := ih (cur + s) (by omega) hcur
        (fun x hx => hfit x (List.mem_cons_of_mem _ hx))
      simp only [List.sum_cons]
      omega

theorem pack_next_sum (max_size : Nat) (l : List Nat) (cur : Nat)
    (hhi : cur ≤ max_size) (hfit : ∀ s ∈ l, s ≤ max_size) :
    cur + (pack_next max_size l cur).1.sum ≤ max_size := by
  induction l generalizing cur with
  | nil => simpa [pack_next]
  | cons s rest ih =>
    simp only [pack_next]
    split
    · simpa
    · rename_i hguard
      have hs : s ≤ max_size := hfit s (by simp)
      have hcur : cur + s ≤ max_size := by
        rcases Nat.eq_zero_or_pos cur with h | h
        · omega
        · rcases le_or_lt (cur + s) max_size with h' | h'
          · exact h'
          · exact absurd ⟨h', h⟩ hguard
      have := ih (cur + s) hcur
        (fun x hx => hfit x (List.mem_cons_of_mem _ hx))
      simp only [List.sum_cons]
      omega

theorem pack_next_rem_mem (max_size : Nat) (l : List Nat) (cur : Nat) :
    ∀ x ∈ (pack_next max_size l cur).2, x ∈ l := by
  intro x hx
  have h := pack_next_append max_size l cur
  rw [← h]
  exact List.mem_append_right _ hx

theorem pack_volumes_fuel_sum (max_size : Nat) :
    ∀ (n : Nat) (l : List Nat), (∀ s ∈ l, s ≤ max_size) →
      ∀ vol ∈ pack_volumes_fuel max_size n l, vol.sum ≤ max_size := by
  intro n
  induction n with
  | zero =>
    intro l _ vol hvol
    simp [pack_volumes_fuel] at hvol
  | succ n ih =>
    intro l hfit vol hvol
    match l with
    | [] => simp [pack_volumes_fuel] at hvol
    | s :: rest =>
      simp only [pack_volumes_fuel, List.mem_cons] at hvol
      rcases hvol with rfl | hvol
      · have := pack_next_sum max_size rest s (hfit s (by simp))
          (fun x hx => hfit x (List.mem_cons_of_mem _ hx))
        simpa using this
      · exact ih _
          (fun x hx => hfit x (List.mem_cons_of_mem _ (pack_next_rem_mem _ _ _ x hx)))
          vol hvol

theorem pack_volumes_sum (max_size : Nat) (l : List Nat)
    (hfit : ∀ s ∈ l, s ≤ max_size) :
    ∀ vol ∈ pack_volumes max_size l, vol.sum ≤ max_size :=
  pack_volumes_fuel_sum max_size l.length l hfit

theorem pack_volumes_fuel_join (max_size : Nat) :
    ∀ (n : Nat) (l : List Nat), l.length ≤ n →
      (pack_volumes_fuel max_size n l).flatten = l := by
  intro n
  induction n with
  | zero =>
    intro l hl
    rw [List.length_eq_zero.mp (Nat.le_zero.mp hl)]
    simp [pack_volumes_fuel]
  | succ n ih =>
    intro l hl
    match l with
    | [] => simp [pack_volumes_fuel]
    | s :: rest =>
      have hrem := pack_next_length max_size rest s
      have hlen : (pack_next max_size rest s).2.length ≤ n := by
        simp only [List.length_cons] at hl
        omega
      simp only [pack_volumes_fuel, List.flatten_cons, ih _ hlen,
        List.cons_append, pack_next_append]

theorem pack_volumes_join (max_size : Nat) (l : List Nat) :
    (pack_volumes max_size l).flatten = l :=
  pack_volumes_fuel_join max_size l.length l (Nat.le_refl _)

/-! ## Claim theorems -/

/-- Claim C2 (amended).  When the manifest fits the ceiling and every
attachment fits the ceiling alongside the manifest, every volume emitted by
`create_backup_package` has payload at most the ceiling; and no attachment
is ever rejected: the concatenation of the emitted volumes is exactly the
manifest followed by every attachment in input order — in particular a
single attachment larger than the ceiling is packed, not rejected. -/
theorem packaging_bound_spec (info_size max_size : Nat) (atts : List Nat) :
    ((info_size ≤ max_size) → (∀ s ∈ atts, info_size + s ≤ max_size) →
      ∀ vol ∈ create_backup_package info_size max_size atts,
        vol.sum ≤ max_size) ∧
    (create_backup_package info_size max_size atts).flatten =
      info_size :: atts := by
  constructor
  · intro hinfo hfit vol hvol
    unfold create_backup_package at hvol
    split at hvol
    · rename_i hle
      simp only [List.mem_singleton] at hvol
      subst hvol
      simpa using hle
    · unfold create_multi_volume_backup at hvol
      simp only [List.mem_cons] at hvol
      rcases hvol with rfl | hvol
      · have := pack_vol1_sum max_size info_size atts info_size
          (Nat.le_refl _) hinfo hfit
        simpa using this
      · have hsub : ∀ x ∈ (pack_vol1 max_size info_size atts info_size).2,
            x ∈ atts := by
          intro x hx
          rw [← pack_vol1_append max_size info_size atts info_size]
          exact List.mem_append_right _ hx
        exact pack_volumes_sum max_size _
          (fun x hx => Nat.le_trans (Nat.le_add_left _ info_size)
            (hfit x (hsub x hx)))
          vol hvol
  · unfold create_backup_package
    split
    · simp
    · unfold create_multi_volume_backup
      simp only [List.flatten_cons, List.cons_append]
      rw [pack_volumes_join max_size]
      rw [pack_vol1_append]

/-- Claim C2, counterexample to the claim as stated: with ceiling 100 and a
manifest of 10 bytes, a single 150-byte attachment (larger than the
ceiling) is not rejected — it is packed into volume 1, whose payload
10 + 150 exceeds the ceiling. -/
theorem packaging_bound_counterexample :
    create_backup_package 10 100 [150] = [[10, 150]] ∧
    150 > 100 ∧ (10 + 150 : Nat) > 100 ∧
    ([10, 150] : List Nat).sum > 100 := by
  refine ⟨?_, by decide, by decide, by decide⟩
  decide

/-- Witness for `packaging_bound_spec` at a concrete input. -/
theorem packaging_bound_spec_witness :
    ((10 ≤ 100 ∧ ∀ s ∈ [60, 60, 30], (10 : Nat) + s ≤ 100) →
      ∀ vol ∈ create_backup_package 10 100 [60, 60, 30], vol.sum ≤ 100) ∧
    (create_backup_package 10 100 [60, 60, 30]).flatten = 10 :: [60, 60, 30] :=
  ⟨fun h => (packaging_bound_spec 10 100 [60, 60, 30]).1 h.1 h.2,
    (packaging_bound_spec 10 100 [60, 60, 30]).2⟩

/-- Claim C6.  Consecutive connection losses back off exponentially: the
k-th retry waits `min(base_delay * 2^(k-1), 300)` seconds; exceeding
`max_retries` raises a fatal error; a successful connect resets the counter
so the next failure's delay is `base_delay` again; and with `base_delay =
5` the delays of a run of failures are 5, 10, 20, 40, 80, 160, capped at
300. -/
theorem reconnect_backoff_spec :
    (∀ (r : ReconnectManager) (k : Nat),
      r.current_retries = k - 1 → 1 ≤ k → k ≤ r.max_retries →
      handle_reconnect r =
        Except.ok (min (r.base_delay * 2 ^ (k - 1)) 300,
          { r with current_retries := k })) ∧
    (∀ r : ReconnectManager, r.max_retries ≤ r.current_retries →
      handle_reconnect r = Except.error "too many reconnect failures") ∧
    (∀ r : ReconnectManager, r.base_delay ≤ 300 → 1 ≤ r.max_retries →
      handle_reconnect (reset_retry_count r) =
        Except.ok (r.base_delay, { r with current_retries := 1 })) ∧
    consecutive_delays ⟨10, 5, 0⟩ 7 =
      Except.ok [5, 10, 20, 40, 80, 160, 300] := by
  refine ⟨?_, ?_, ?_, by rfl⟩
  · intro r k hk h1 hmax
    unfold handle_reconnect
    have : r.current_retries + 1 = k := by omega
    rw [this]
    simp [Nat.not_lt.mpr hmax]
  · intro r h
    unfold handle_reconnect
    simp only []
    rw [if_pos (by omega)]
  · intro r hbase hmax
    unfold handle_reconnect reset_retry_count
    simp only []
    rw [if_neg (by simp; omega)]
    simp [Nat.min_eq_left hbase]

/-- Witness for `reconnect_backoff_spec` at a concrete input. -/
theorem reconnect_backoff_spec_witness :
    ((⟨5, 5, 2⟩ : ReconnectManager).current_retries = 3 - 1 ∧
      1 ≤ 3 ∧ 3 ≤ (⟨5, 5, 2⟩ : ReconnectManager).max_retries) ∧
    handle_reconnect ⟨5, 5, 2⟩ =
      Except.ok (min (5 * 2 ^ (3 - 1)) 300, ⟨5, 5, 3⟩) :=
  ⟨⟨rfl, by decide, by decide⟩,
    reconnect_backoff_spec.1 ⟨5, 5, 2⟩ 3 rfl (by decide) (by decide)⟩

/-! ## Lemmas about `get_latest_message_time` -/

theorem le_foldl_max (l : List Nat) (a : Nat) : a ≤ l.foldl Nat.max a := by
  induction l generalizing a with
  | nil => exact Nat.le_refl a
  | cons x xs ih =>
    exact Nat.le_trans (Nat.le_max_left a x) (ih (Nat.max a x))

theorem mem_le_foldl_max (l : List Nat) (a : Nat) :
    ∀ x ∈ l, x ≤ l.foldl Nat.max a := by
  induction l generalizing a with
  | nil => intro x hx; simp at hx
  | cons y ys ih =>
    intro x hx
    rcases List.mem_cons.mp hx with rfl | hx
    · exact Nat.le_trans (Nat.le_max_right a x) (le_foldl_max ys _)
    · exact ih (Nat.max a y) x hx

theorem foldl_max_mem (l : List Nat) (a : Nat) :
    l.foldl Nat.max a = a ∨ l.foldl Nat.max a ∈ l := by
  induction l generalizing a with
  | nil => exact Or.inl rfl
  | cons y ys ih =>
    have hm : Nat.max a y = a ∨ Nat.max a y = y := by
      rcases Nat.le_total a y with h' | h'
      · exact Or.inr (Nat.max_eq_right h')
      · exact Or.inl (Nat.max_eq_left h')
    simp only [List.foldl_cons]
    rcases hm with hm | hm <;> rw [hm]
    · rcases ih a with h | h
      · exact Or.inl h
      · exact Or.inr (List.mem_cons_of_mem _ h)
    · rcases ih y with h | h
      · rw [h]; exact Or.inr (List.mem_cons_self y ys)
      · exact Or.inr (List.mem_cons_of_mem _ h)

/-- Claim C1 (amended).  The resume point `recover_single_config` passes to
the history scan is the latest `created_at` among the config's own
`MessageBackup` rows when any exist — the maximum over exactly those rows —
and the last recorded activity timestamp `T_last` otherwise;
`config.last_check_time` is not consulted. -/
theorem recovery_resume_point_spec (db : DB) (config_id t_last : Nat) :
    (get_latest_message_time db config_id = none →
      recovery_resume_point db config_id t_last = t_last ∧
      ∀ mb ∈ db.message_backups, mb.config_id ≠ config_id) ∧
    (∀ t, get_latest_message_time db config_id = some t →
      recovery_resume_point db config_id t_last = t ∧
      (∃ mb ∈ db.message_backups, mb.config_id = config_id ∧
        mb.created_at = t) ∧
      ∀ mb ∈ db.message_backups, mb.config_id = config_id →
        mb.created_at ≤ t) := by
  constructor
  · intro hnone
    refine ⟨by simp [recovery_resume_point, hnone], ?_⟩
    intro mb hmb hcfg
    unfold get_latest_message_time at hnone
    have hmem : mb.created_at ∈
        (db.message_backups.filter (·.config_id == config_id)).map
          (·.created_at) :=
      List.mem_map_of_mem _
        (List.mem_filter.mpr ⟨hmb, by simp [hcfg]⟩)
    rcases h : (db.message_backups.filter (·.config_id == config_id)).map
        (·.created_at) with _ | ⟨t, ts⟩
    · rw [h] at hmem; simp at hmem
    · rw [h] at hnone; simp at hnone
  · intro t hsome
    refine ⟨by simp [recovery_resume_point, hsome], ?_, ?_⟩
    · unfold get_latest_message_time at hsome
      rcases h : (db.message_backups.filter (·.config_id == config_id)).map
          (·.created_at) with _ | ⟨t0, ts⟩
      · rw [h] at hsome; simp at hsome
      · rw [h] at hsome
        simp only [Option.some.injEq] at hsome
        have hmem : t ∈ t0 :: ts := by
          rw [← hsome]
          rcases foldl_max_mem ts t0 with hm | hm
          · rw [hm]; exact List.mem_cons_self t0 ts
          · exact List.mem_cons_of_mem _ hm
        rw [← h] at hmem
        rcases List.mem_map.mp hmem with ⟨mb, hmb, hca⟩
        rcases List.mem_filter.mp hmb with ⟨hmb', hcfg⟩
        exact ⟨mb, hmb', by simpa using hcfg, hca⟩
    · intro mb hmb hcfg
      unfold get_latest_message_time at hsome
      have hmem : mb.created_at ∈
          (db.message_backups.filter (·.config_id == config_id)).map
            (·.created_at) :=
        List.mem_map_of_mem _
          (List.mem_filter.mpr ⟨hmb, by simp [hcfg]⟩)
      rcases h : (db.message_backups.filter (·.config_id == config_id)).map
          (·.created_at) with _ | ⟨t0, ts⟩
      · rw [h] at hmem; simp at hmem
      · rw [h] at hsome hmem
        simp only [Option.some.injEq] at hsome
        rcases List.mem_cons.mp hmem with hx | hx
        · rw [hx, ← hsome]; exact le_foldl_max ts t0
        · rw [← hsome]; exact mem_le_foldl_max ts t0 _ hx

/-- Config row used for the C1 counterexample: checkpoint 100, no archived
messages. -/
def c1_cfg : BackupConfig :=
  { id := 1, guild_id := 1, channel_id := 2, thread_id := none, author_id := 7,
    title := none, enabled := true, created_at := 0,
    last_check_time := some 100 }

/-- Store used for the C1 counterexample. -/
def c1_db : DB :=
  { backup_configs := [c1_cfg], message_backups := [], file_backups := [],
    last_activity_time := some 50, next_config_id := 2,
    next_message_backup_id := 1, next_file_backup_id := 1 }

/-- Claim C1, counterexample to the claim as stated: for an enabled config
with `last_check_time = 100`, no archived messages and `T_last = 50`, the
spec's formula `max(last_check_time, T_last)` gives 100, but the code
resumes from 50 — `recover_single_config` reads
`get_latest_message_time` (MAX of the config's `message_backups.created_at`),
not the config's checkpoint. -/
theorem recovery_resume_point_counterexample :
    c1_cfg ∈ c1_db.backup_configs ∧ c1_cfg.enabled = true ∧
    recovery_resume_point c1_db 1 50 = 50 ∧
    claimed_resume_point c1_cfg 50 = 100 ∧
    (50 : Nat) ≠ 100 := by
  refine ⟨by simp [c1_db], rfl, by rfl, by rfl, by decide⟩

/-- Witness for `recovery_resume_point_spec` at a concrete input. -/
theorem recovery_resume_point_spec_witness :
    get_latest_message_time c1_db 1 = none ∧
    (recovery_resume_point c1_db 1 50 = 50 ∧
      ∀ mb ∈ c1_db.message_backups, mb.config_id ≠ 1) :=
  ⟨rfl, (recovery_resume_point_spec c1_db 1 50).1 rfl⟩

/-- Claim C4 (amended).  For a message whose `message_id` already has a
`MessageBackup` row: the live-event path (`handle_message`) skips it via a
pre-existence check — no error, store unchanged; but the archive path
itself (`process_message_backup` / `save_message_backup`) treats the
duplicate insert as a failure: the uniqueness conflict is caught, the
insert returns `none`, and the call reports `false` — not an
AlreadyExists-success — while the `MessageBackup` set is still
unchanged. -/
theorem duplicate_archive_spec (db : DB) (msg : Message)
    (config_id : Nat) (content_type : String) (now : Nat)
    (h : (get_message_backup_by_message_id db msg.id).isSome) :
    handle_message db msg now = db ∧
    process_message_backup db msg config_id content_type now = (false, db) := by
  have hex : ∃ mb ∈ db.message_backups, mb.message_id == msg.id := by
    unfold get_message_backup_by_message_id at h
    rcases Option.isSome_iff_exists.mp h with ⟨mb, hmb⟩
    have := List.find?_some hmb
    exact ⟨mb, List.mem_of_find?_eq_some hmb, this⟩
  have hany : db.message_backups.any (·.message_id == msg.id) = true :=
    List.any_eq_true.mpr (by simpa using hex)
  constructor
  · unfold handle_message
    rcases hbot : msg.author_is_bot with _ | _
    · simp only [Bool.false_eq_true, if_false]
      rcases hcfg : get_backup_config db msg.guild_id msg.channel_id
          msg.thread_id msg.author_id with _ | cfg
      · rfl
      · rcases hmb : get_message_backup_by_message_id db msg.id with _ | mb
        · rw [hmb] at h; simp at h
        · rfl
    · simp
  · unfold process_message_backup save_message_backup
    rw [hany]
    rfl

/-- Row and store for the C4 counterexample: message 11 is already
archived. -/
def c4_db : DB :=
  { backup_configs := [c1_cfg],
    message_backups :=
      [{ id := 1, config_id := 1, message_id := 11, content := "x",
         created_at := 3, backup_time := 4, content_type := "channel" }],
    file_backups := [], last_activity_time := some 50, next_config_id := 2,
    next_message_backup_id := 2, next_file_backup_id := 1 }

/-- The already-archived message re-submitted for the C4 counterexample. -/
def c4_msg : Message :=
  { id := 11, guild_id := 1, channel_id := 2, thread_id := none,
    author_id := 7, author_is_bot := false, content := "y", created_at := 3,
    attachments := [] }

/-- Claim C4, counterexample to the claim as stated: archiving message 11
again through the archiver (`process_message_backup`, the function the
claim cites) yields `false` — a failure outcome surfaced to the caller, not
an AlreadyExists success — though the store is left unchanged. -/
theorem duplicate_archive_counterexample :
    (get_message_backup_by_message_id c4_db 11).isSome = true ∧
    process_message_backup c4_db c4_msg 1 "channel" 9 = (false, c4_db) ∧
    (process_message_backup c4_db c4_msg 1 "channel" 9).1 ≠ true := by
  refine ⟨rfl, rfl, by decide⟩

/-- Witness for `duplicate_archive_spec` at a concrete input. -/
theorem duplicate_archive_spec_witness :
    (get_message_backup_by_message_id c4_db c4_msg.id).isSome = true ∧
    (handle_message c4_db c4_msg 9 = c4_db ∧
      process_message_backup c4_db c4_msg 1 "channel" 9 = (false, c4_db)) :=
  ⟨rfl, duplicate_archive_spec c4_db c4_msg 1 "channel" 9 (by rfl)⟩

/-! ## Frame lemmas for the archiver and scan loops -/

theorem save_message_backup_configs (db : DB) (config_id message_id : Nat)
    (content : String) (created_at : Nat) (content_type : String) (now : Nat) :
    (save_message_backup db config_id message_id content created_at
      content_type now).2.backup_configs = db.backup_configs := by
  unfold save_message_backup
  split <;> rfl

theorem process_attachment_configs (db : DB) (att : Attachment)
    (message_backup_id now : Nat) :
    (process_attachment db att message_backup_id now).2.backup_configs =
      db.backup_configs := by
  unfold process_attachment
  rcases att.fetch_result with _ | p <;> rfl

theorem process_attachment_messages (db : DB) (att : Attachment)
    (message_backup_id now : Nat) :
    (process_attachment db att message_backup_id now).2.message_backups =
      db.message_backups := by
  unfold process_attachment
  rcases att.fetch_result with _ | p <;> rfl

theorem process_attachments_configs (atts : List Attachment) :
    ∀ (db : DB) (message_backup_id now : Nat),
      (process_attachments db atts message_backup_id now).backup_configs =
        db.backup_configs := by
  induction atts with
  | nil => intro db mbid now; rfl
  | cons att rest ih =>
    intro db mbid now
    simp only [process_attachments]
    rw [ih, process_attachment_configs]

theorem process_attachments_messages (atts : List Attachment) :
    ∀ (db : DB) (message_backup_id now : Nat),
      (process_attachments db atts message_backup_id now).message_backups =
        db.message_backups := by
  induction atts with
  | nil => intro db mbid now; rfl
  | cons att rest ih =>
    intro db mbid now
    simp only [process_attachments]
    rw [ih, process_attachment_messages]

theorem process_message_backup_configs (db : DB) (msg : Message)
    (config_id : Nat) (content_type : String) (now : Nat) :
    (process_message_backup db msg config_id content_type
      now).2.backup_configs = db.backup_configs := by
  unfold process_message_backup
  rcases h : save_message_backup db config_id msg.id msg.content
      msg.created_at content_type now with ⟨_ | mbid, db'⟩
  · have := save_message_backup_configs db config_id msg.id msg.content
      msg.created_at content_type now
    rw [h] at this
    exact this
  · simp only []
    rw [process_attachments_configs]
    have := save_message_backup_configs db config_id msg.id msg.content
      msg.created_at content_type now
    rw [h] at this
    exact this

theorem scan_loop_configs (events : List (Option Message)) :
    ∀ (db : DB) (author_id config_id : Nat) (content_type : String)
      (start_time : Option Nat) (now scanned downloaded : Nat),
      (scan_loop db events author_id config_id content_type start_time now
        scanned downloaded).2.backup_configs = db.backup_configs := by
  induction events with
  | nil => intro db a c ct st now s d; rfl
  | cons e rest ih =>
    intro db a c ct st now s d
    rcases e with _ | m
    · rfl
    · simp only [scan_loop]
      split
      · exact ih db a c ct st now s d
      · split
        · exact ih db a c ct st now s d
        · split
          · exact ih db a c ct st now (s + 1) d
          · rw [ih, process_message_backup_configs]

theorem scan_loop_failure (events : List (Option Message))
    (hfail : none ∈ events) :
    ∀ (db : DB) (author_id config_id : Nat) (content_type : String)
      (start_time : Option Nat) (now scanned downloaded : Nat),
      (scan_loop db events author_id config_id content_type start_time now
        scanned downloaded).1 = none := by
  induction events with
  | nil => simp at hfail
  | cons e rest ih =>
    intro db a c ct st now s d
    rcases e with _ | m
    · rfl
    · have hfail' : none ∈ rest := by
        rcases List.mem_cons.mp hfail with h | h
        · exact absurd h (by simp)
        · exact h
      simp only [scan_loop]
      split
      · exact ih hfail' db a c ct st now s d
      · split
        · exact ih hfail' db a c ct st now s d
        · split
          · exact ih hfail' db a c ct st now (s + 1) d
          · exact ih hfail' _ a c ct st now (s + 1) _

theorem scan_loop_ok (events : List (Option Message))
    (hok : ∀ e ∈ events, e ≠ none) :
    ∀ (db : DB) (author_id config_id : Nat) (content_type : String)
      (start_time : Option Nat) (now scanned downloaded : Nat),
      ∃ counts, (scan_loop db events author_id config_id content_type
        start_time now scanned downloaded).1 = some counts := by
  induction events with
  | nil => intro db a c ct st now s d; exact ⟨(s, d), rfl⟩
  | cons e rest ih =>
    intro db a c ct st now s d
    rcases e with _ | m
    · exact absurd rfl (hok none (by simp))
    · have hok' : ∀ e ∈ rest, e ≠ none :=
        fun e he => hok e (List.mem_cons_of_mem _ he)
      simp only [scan_loop]
      split
      · exact ih hok' db a c ct st now s d
      · split
        · exact ih hok' db a c ct st now s d
        · split
          · exact ih hok' db a c ct st now (s + 1) d
          · exact ih hok' _ a c ct st now (s + 1) _

theorem count_loop_ok (l : List (Option Message)) :
    ∀ n, (∀ e ∈ l, e ≠ none) → n + l.length ≤ 10000 →
      count_loop l n = some false := by
  induction l with
  | nil => intro n _ _; rfl
  | cons e rest ih =>
    intro n hok hle
    rcases e with _ | m
    · exact absurd rfl (hok none (by simp))
    · simp only [count_loop]
      rw [if_neg (by simp at hle; omega)]
      exact ih (n + 1) (fun e he => hok e (List.mem_cons_of_mem _ he))
        (by simp at hle; omega)

theorem count_loop_over (l : List (Option Message)) :
    ∀ n, (∀ e ∈ l, e ≠ none) → n ≤ 10000 → n + l.length > 10000 →
      count_loop l n = some true := by
  induction l with
  | nil => intro n _ hle hgt; simp at hgt; omega
  | cons e rest ih =>
    intro n hok hle hgt
    rcases e with _ | m
    · exact absurd rfl (hok none (by simp))
    · simp only [count_loop]
      by_cases h : n + 1 > 10000
      · rw [if_pos h]
      · rw [if_neg h]
        exact ih (n + 1) (fun e he => hok e (List.mem_cons_of_mem _ he))
          (by omega) (by simp at hgt; omega)

theorem count_loop_failure (l : List (Option Message)) :
    ∀ n, none ∈ l → count_loop l n = none ∨ count_loop l n = some true := by
  induction l with
  | nil => intro n h; simp at h
  | cons e rest ih =>
    intro n h
    rcases e with _ | m
    · exact Or.inl rfl
    · have h' : none ∈ rest := by
        rcases List.mem_cons.mp h with h0 | h0
        · exact absurd h0 (by simp)
        · exact h0
      simp only [count_loop]
      by_cases hc : n + 1 > 10000
      · rw [if_pos hc]; exact Or.inr rfl
      · rw [if_neg hc]; exact ih (n + 1) h'

/-- Claim C3.  When a history scan completes normally (location resolves,
no fetch failure, a thread stays within the 10000-message guard), the
config's `last_check_time` is set to `now` — the scan's own completion
wall-clock timestamp, an input independent of every scanned item's
timestamp — and every other config row is untouched.  When a fetch failure
occurs mid-scan, the scan returns `(0, 0)` and every config row, in
particular the checkpoint, is left exactly as it was, so a retry re-scans
the same window. -/
theorem scan_checkpoint_spec (db : DB) (loc : Location)
    (thread_id : Option Nat) (author_id config_id : Nat)
    (start_time : Option Nat) (now : Nat) :
    (loc.guild_ok = true → loc.channel_ok = true → loc.thread_ok = true →
      (∀ e ∈ loc.history, e ≠ none) → loc.history.length ≤ 10000 →
      (scan_history db loc thread_id author_id config_id start_time
        now).2.backup_configs =
        db.backup_configs.map (fun c =>
          if c.id == config_id then { c with last_check_time := some now }
          else c)) ∧
    (none ∈ loc.history →
      (scan_history db loc thread_id author_id config_id start_time
        now).1 = (0, 0) ∧
      (scan_history db loc thread_id author_id config_id start_time
        now).2.backup_configs = db.backup_configs) := by
  constructor
  · intro hg hc ht hok hlen
    unfold scan_history
    rw [hg]
    simp only [Bool.not_true, Bool.false_eq_true, if_false]
    rcases thread_id with _ | t
    · rw [hc]
      simp only [Bool.not_true, Bool.false_eq_true, if_false]
      rcases hs : scan_loop db loc.history author_id config_id "channel"
          start_time now 0 0 with ⟨r, db'⟩
      rcases scan_loop_ok loc.history hok db author_id config_id "channel"
          start_time now 0 0 with ⟨counts, hcounts⟩
      rw [hs] at hcounts
      simp only [] at hcounts
      subst hcounts
      simp only [update_backup_config_check_time]
      have := scan_loop_configs loc.history db author_id config_id "channel"
        start_time now 0 0
      rw [hs] at this
      simp only [] at this
      rw [this]
    · rw [hc, ht]
      simp only [Bool.not_true, Bool.false_eq_true, if_false]
      rw [count_loop_ok loc.history 0 hok (by omega)]
      rcases hs : scan_loop db loc.history author_id config_id "thread"
          start_time now 0 0 with ⟨r, db'⟩
      rcases scan_loop_ok loc.history hok db author_id config_id "thread"
          start_time now 0 0 with ⟨counts, hcounts⟩
      rw [hs] at hcounts
      simp only [] at hcounts
      subst hcounts
      simp only [update_backup_config_check_time]
      have := scan_loop_configs loc.history db author_id config_id "thread"
        start_time now 0 0
      rw [hs] at this
      simp only [] at this
      rw [this]
  · intro hfail
    unfold scan_history
    rcases hg : loc.guild_ok with _ | _
    · simp
    · simp only [Bool.not_true, Bool.false_eq_true, if_false]
      rcases thread_id with _ | t
      · rcases hc : loc.channel_ok with _ | _
        · simp
        · simp only [Bool.not_true, Bool.false_eq_true, if_false]
          rcases hs : scan_loop db loc.history author_id config_id "channel"
              start_time now 0 0 with ⟨r, db'⟩
          have h1 := scan_loop_failure loc.history hfail db author_id
            config_id "channel" start_time now 0 0
          rw [hs] at h1
          simp only [] at h1
          subst h1
          have h2 := scan_loop_configs loc.history db author_id config_id
            "channel" start_time now 0 0
          rw [hs] at h2
          simp only [] at h2
          exact ⟨rfl, h2⟩
      · rcases hc : loc.channel_ok with _ | _
        · simp
        · simp only [Bool.not_true, Bool.false_eq_true, if_false]
          rcases ht : loc.thread_ok with _ | _
          · simp
          · simp only [Bool.not_true, Bool.false_eq_true, if_false]
            rcases count_loop_failure loc.history 0 hfail with h | h <;>
              rw [h] <;> exact ⟨rfl, rfl⟩

/-- A one-message healthy channel history for the C3 witness. -/
def c3_msg : Message :=
  { id := 21, guild_id := 1, channel_id := 2, thread_id := none,
    author_id := 7, author_is_bot := false, content := "hi",
    created_at := 400, attachments := [] }

/-- Witness for `scan_checkpoint_spec` at a concrete input. -/
theorem scan_checkpoint_spec_witness :
    ((⟨true, true, true, [some c3_msg]⟩ : Location).guild_ok = true ∧
      (∀ e ∈ (⟨true, true, true, [some c3_msg]⟩ : Location).history,
        e ≠ none) ∧
      (⟨true, true, true, [some c3_msg]⟩ : Location).history.length ≤
        10000) ∧
    (scan_history c1_db ⟨true, true, true, [some c3_msg]⟩ none 7 1 (some 60)
      999).2.backup_configs =
      c1_db.backup_configs.map (fun c =>
        if c.id == 1 then { c with last_check_time := some 999 } else c) :=
  ⟨⟨rfl, by simp, by simp⟩,
    (scan_checkpoint_spec c1_db ⟨true, true, true, [some c3_msg]⟩ none 7 1
      (some 60) 999).1 rfl rfl rfl (by simp) (by simp)⟩

/-- Claim C9.  A thread-scoped history scan over a thread holding more than
10000 messages is abandoned by the pre-count guard before archiving
anything: it returns `(0, 0)` and the store — message rows, file rows and
the config's `last_check_time` alike — is exactly the input store. -/
theorem thread_limit_spec (db : DB) (loc : Location) (t : Nat)
    (author_id config_id : Nat) (start_time : Option Nat) (now : Nat)
    (hg : loc.guild_ok = true) (hc : loc.channel_ok = true)
    (ht : loc.thread_ok = true) (hok : ∀ e ∈ loc.history, e ≠ none)
    (hlen : loc.history.length > 10000) :
    scan_history db loc (some t) author_id config_id start_time now =
      ((0, 0), db) := by
  unfold scan_history
  rw [hg, hc, ht]
  simp only [Bool.not_true, Bool.false_eq_true, if_false]
  rw [count_loop_over loc.history 0 hok (by omega) (by omega)]

/-- Witness for `thread_limit_spec` at a concrete input: a thread with
10001 messages. -/
theorem thread_limit_spec_witness :
    ((∀ e ∈ (⟨true, true, true,
        List.replicate 10001 (some c3_msg)⟩ : Location).history, e ≠ none) ∧
      (⟨true, true, true,
        List.replicate 10001 (some c3_msg)⟩ : Location).history.length >
        10000) ∧
    scan_history c1_db
      ⟨true, true, true, List.replicate 10001 (some c3_msg)⟩ (some 3) 7 1
      none 999 = ((0, 0), c1_db) :=
  ⟨⟨by
      intro e he
      simp only [List.mem_replicate] at he
      rw [he.2]
      simp, by
      show (List.replicate 10001 (some c3_msg)).length > 10000
      rw [List.length_replicate]
      omega⟩,
    thread_limit_spec c1_db
      ⟨true, true, true, List.replicate 10001 (some c3_msg)⟩ 3 7 1 none 999
      rfl rfl rfl
      (by
        intro e he
        simp only [List.mem_replicate] at he
        rw [he.2]
        simp)
      (by
        show (List.replicate 10001 (some c3_msg)).length > 10000
        rw [List.length_replicate]
        omega)⟩

theorem process_message_backup_mem (db : DB) (msg : Message)
    (config_id : Nat) (content_type : String) (now : Nat) :
    ∀ mb ∈ (process_message_backup db msg config_id content_type
        now).2.message_backups,
      mb ∈ db.message_backups ∨ mb.message_id = msg.id := by
  intro mb hmb
  unfold process_message_backup at hmb
  rcases h : save_message_backup db config_id msg.id msg.content
      msg.created_at content_type now with ⟨r, db'⟩
  rw [h] at hmb
  rcases r with _ | mbid
  · simp only [] at hmb
    unfold save_message_backup at h
    split at h
    · rcases h with ⟨rfl, rfl⟩
      exact Or.inl hmb
    · simp at h
  · simp only [process_attachments_messages] at hmb
    unfold save_message_backup at h
    split at h
    · simp at h
    · rcases h with ⟨_, rfl⟩
      simp only [] at hmb
      rcases List.mem_append.mp hmb with h' | h'
      · exact Or.inl h'
      · simp only [List.mem_singleton] at h'
        subst h'
        exact Or.inr rfl

theorem scan_loop_mem (events : List (Option Message)) :
    ∀ (db : DB) (author_id config_id : Nat) (content_type : String)
      (start_time : Option Nat) (now scanned downloaded : Nat),
      ∀ mb ∈ (scan_loop db events author_id config_id content_type
          start_time now scanned downloaded).2.message_backups,
        mb ∈ db.message_backups ∨
          ∃ m, some m ∈ events ∧ m.author_id = author_id ∧
            m.author_is_bot = false ∧ mb.message_id = m.id := by
  induction events with
  | nil => intro db a c ct st now s d mb hmb; exact Or.inl hmb
  | cons e rest ih =>
    intro db a c ct st now s d mb hmb
    have step : ∀ m, some m ∈ rest ∧ m.author_id = a ∧
        m.author_is_bot = false ∧ mb.message_id = m.id →
        ∃ m, some m ∈ e :: rest ∧ m.author_id = a ∧
          m.author_is_bot = false ∧ mb.message_id = m.id :=
      fun m hm => ⟨m, List.mem_cons_of_mem _ hm.1, hm.2⟩
    rcases e with _ | m
    · exact Or.inl hmb
    · simp only [scan_loop] at hmb
      split at hmb
      · rcases ih db a c ct st now s d mb hmb with h | ⟨m', hm'⟩
        · exact Or.inl h
        · exact Or.inr (step m' hm')
      · split at hmb
        · rcases ih db a c ct st now s d mb hmb with h | ⟨m', hm'⟩
          · exact Or.inl h
          · exact Or.inr (step m' hm')
        · rename_i hskip
          split at hmb
          · rcases ih db a c ct st now (s + 1) d mb hmb with h | ⟨m', hm'⟩
            · exact Or.inl h
            · exact Or.inr (step m' hm')
          · rcases ih _ a c ct st now (s + 1) _ mb hmb with h | ⟨m', hm'⟩
            · rcases process_message_backup_mem db m c ct now mb h with
                h' | h'
              · exact Or.inl h'
              · refine Or.inr ⟨m, List.mem_cons_self _ _, ?_, ?_, h'⟩
                · simp only [Bool.or_eq_true, bne_iff_ne, ne_eq,
                    not_or, Bool.not_eq_true] at hskip
                  exact Decidable.of_not_not hskip.1
                · simp only [Bool.or_eq_true, bne_iff_ne, ne_eq,
                    not_or, Bool.not_eq_true] at hskip
                  exact hskip.2
            · exact Or.inr (step m' hm')

/-- Claim C8.  Author isolation.  First conjunct: any `MessageBackup` row
present after a history scan either pre-existed or originates from a
non-bot message whose author is exactly the config's author — a config
scoped to author A creates zero rows for messages authored by anyone else.
Second conjunct: a live event from an author other than the one every
enabled config at that location is scoped to leaves the store untouched. -/
theorem author_isolation_spec (db : DB) (loc : Location)
    (thread_id : Option Nat) (author_id config_id : Nat)
    (start_time : Option Nat) (now : Nat) (msg : Message) (a : Nat) :
    (∀ mb ∈ (scan_history db loc thread_id author_id config_id start_time
        now).2.message_backups,
      mb ∈ db.message_backups ∨
        ∃ m, some m ∈ loc.history ∧ m.author_id = author_id ∧
          m.author_is_bot = false ∧ mb.message_id = m.id) ∧
    ((∀ cfg ∈ db.backup_configs, cfg.enabled = true →
        cfg.guild_id = msg.guild_id → cfg.channel_id = msg.channel_id →
        cfg.thread_id = msg.thread_id → cfg.author_id = a) →
      msg.author_id ≠ a → handle_message db msg now = db) := by
  constructor
  · intro mb hmb
    unfold scan_history at hmb
    split at hmb
    · exact Or.inl hmb
    · split at hmb
      · split at hmb
        · exact Or.inl hmb
        · split at hmb
          · exact Or.inl hmb
          · split at hmb
            · exact Or.inl hmb
            · exact Or.inl hmb
            · rename_i heq
              split at hmb
              · rename_i hs
                have := scan_loop_mem loc.history db author_id config_id
                  "thread" start_time now 0 0 mb (by rw [hs]; exact hmb)
                exact this
              · rename_i counts db' hs
                have hmb' : mb ∈ db'.message_backups := hmb
                have := scan_loop_mem loc.history db author_id config_id
                  "thread" start_time now 0 0 mb (by rw [hs]; exact hmb')
                exact this
      · split at hmb
        · exact Or.inl hmb
        · split at hmb
          · rename_i hs
            have := scan_loop_mem loc.history db author_id config_id
              "channel" start_time now 0 0 mb (by rw [hs]; exact hmb)
            exact this
          · rename_i counts db' hs
            have hmb' : mb ∈ db'.message_backups := hmb
            have := scan_loop_mem loc.history db author_id config_id
              "channel" start_time now 0 0 mb (by rw [hs]; exact hmb')
            exact this
  · intro hA hB
    unfold handle_message
    rcases hbot : msg.author_is_bot with _ | _
    · simp only [Bool.false_eq_true, if_false]
      have hnone : get_backup_config db msg.guild_id msg.channel_id
          msg.thread_id msg.author_id = none := by
        unfold get_backup_config
        apply List.find?_eq_none.mpr
        intro cfg hcfg hp
        simp only [matches_identity, Bool.and_eq_true, beq_iff_eq] at hp
        rcases hp with ⟨⟨⟨⟨hg, hc⟩, ht⟩, hau⟩, hen⟩
        exact hB (hau ▸ hA cfg hcfg hen hg hc ht)
      rw [hnone]
    · simp

/-- Witness for `author_isolation_spec` at a concrete input: the only
enabled config at the location is scoped to author 7, the event's author
is 8. -/
theorem author_isolation_spec_witness :
    ((∀ cfg ∈ c1_db.backup_configs, cfg.enabled = true →
        cfg.guild_id = 1 → cfg.channel_id = 2 →
        cfg.thread_id = none → cfg.author_id = 7) ∧ (8 : Nat) ≠ 7) ∧
    handle_message c1_db
      { id := 31, guild_id := 1, channel_id := 2, thread_id := none,
        author_id := 8, author_is_bot := false, content := "b",
        created_at := 5, attachments := [] } 9 = c1_db :=
  ⟨⟨by decide, by decide⟩,
    (author_isolation_spec c1_db ⟨true, true, true, []⟩ none 7 1 none 9
      { id := 31, guild_id := 1, channel_id := 2, thread_id := none,
        author_id := 8, author_is_bot := false, content := "b",
        created_at := 5, attachments := [] } 7).2 (by decide) (by decide)⟩

/-- Claim C10.  Message-edit frame: an edit whose content equals the prior
content changes nothing in the store; an edit of an archived message by an
author with an enabled config at that location rewrites only the `content`
and `backup_time` fields of that message's row — `message_id`, `config_id`,
`created_at`, `content_type`, every other `MessageBackup` row, every
`FileBackup` row and every config row are unchanged. -/
theorem message_edit_frame_spec (db : DB) (before_content : String)
    (msg : Message) (now : Nat) :
    (before_content = msg.content →
      handle_message_edit db before_content msg now = db) ∧
    (msg.author_is_bot = false → before_content ≠ msg.content →
      ∀ cfg, get_backup_config db msg.guild_id msg.channel_id msg.thread_id
        msg.author_id = some cfg →
      ∀ b, get_message_backup_by_message_id db msg.id = some b →
      (handle_message_edit db before_content msg now).file_backups =
        db.file_backups ∧
      (handle_message_edit db before_content msg now).backup_configs =
        db.backup_configs ∧
      (handle_message_edit db before_content msg now).message_backups.length =
        db.message_backups.length ∧
      ∀ m' ∈ (handle_message_edit db before_content msg now).message_backups,
        ∃ m ∈ db.message_backups,
          m'.message_id = m.message_id ∧ m'.config_id = m.config_id ∧
          m'.created_at = m.created_at ∧ m'.content_type = m.content_type ∧
          (m.message_id ≠ msg.id → m' = m) ∧
          (m.message_id = msg.id →
            m'.content = msg.content ∧ m'.backup_time = now)) := by
  constructor
  · intro h
    unfold handle_message_edit
    rcases hbot : msg.author_is_bot with _ | _
    · simp only [Bool.false_eq_true, if_false]
      rw [if_pos (by simp [h])]
    · simp
  · intro hbot hne cfg hcfg b hb
    have hres : handle_message_edit db before_content msg now =
        update_last_activity_time
          (update_message_backup_content db msg.id msg.content now) now := by
      unfold handle_message_edit
      rw [hbot]
      simp only [Bool.false_eq_true, if_false]
      rw [if_neg (by simp [hne]), hcfg, hb]
    rw [hres]
    refine ⟨rfl, rfl, ?_, ?_⟩
    · simp [update_last_activity_time, update_message_backup_content]
    · intro m' hm'
      simp only [update_last_activity_time, update_message_backup_content,
        List.mem_map] at hm'
      rcases hm' with ⟨m, hm, hf⟩
      refine ⟨m, hm, ?_⟩
      by_cases hid : m.message_id == msg.id
      · rw [if_pos hid] at hf
        subst hf
        refine ⟨rfl, rfl, rfl, rfl, ?_, fun _ => ⟨rfl, rfl⟩⟩
        intro hneq
        exact absurd (by simpa using hid) hneq
      · rw [if_neg hid] at hf
        subst hf
        refine ⟨rfl, rfl, rfl, rfl, fun _ => rfl, ?_⟩
        intro heq
        exact absurd (by simpa using heq) (by simpa using hid)

/-- Witness for `message_edit_frame_spec` at a concrete input: editing the
already-archived message 11 (prior content differs). -/
theorem message_edit_frame_spec_witness :
    ((c4_msg.author_is_bot = false ∧ "x" ≠ c4_msg.content) ∧
      get_backup_config c4_db c4_msg.guild_id c4_msg.channel_id
        c4_msg.thread_id c4_msg.author_id = some c1_cfg) ∧
    ((handle_message_edit c4_db "x" c4_msg 9).file_backups =
        c4_db.file_backups ∧
      (handle_message_edit c4_db "x" c4_msg 9).backup_configs =
        c4_db.backup_configs) := by
  have h := (message_edit_frame_spec c4_db "x" c4_msg 9).2 rfl
    (by decide) c1_cfg (by rfl)
    { id := 1, config_id := 1, message_id := 11, content := "x",
      created_at := 3, backup_time := 4, content_type := "channel" }
    (by rfl)
  exact ⟨⟨⟨rfl, by decide⟩, by rfl⟩, h.1, h.2.1⟩

theorem scan_history_bad_channel (db : DB) (loc : Location)
    (thread_id : Option Nat) (author_id config_id : Nat)
    (start_time : Option Nat) (now : Nat)
    (h : loc.channel_ok = false) :
    scan_history db loc thread_id author_id config_id start_time now =
      ((0, 0), db) := by
  unfold scan_history
  rcases hg : loc.guild_ok with _ | _
  · simp
  · simp only [Bool.not_true, Bool.false_eq_true, if_false]
    rcases thread_id with _ | t <;> rw [h] <;> simp

theorem run_recovery_results (env : Nat → Location) (t now : Nat) :
    ∀ (configs : List BackupConfig) (db : DB),
      (run_recovery_tasks db configs env t now).1 =
        configs.map (fun _ => Except.ok true) := by
  intro configs
  induction configs with
  | nil => intro db; rfl
  | cons cfg rest ih =>
    intro db
    simp only [run_recovery_tasks, recover_single_config, List.map_cons]
    rw [ih]

theorem recovery_success_count_all_ok (configs : List BackupConfig) :
    recovery_success_count (configs.map (fun _ => Except.ok true)) =
      configs.length := by
  induction configs with
  | nil => rfl
  | cons cfg rest ih =>
    simp only [List.map_cons, recovery_success_count, List.filter_cons]
    simp only [recovery_success_count] at ih
    simp [ih]

/-- Claim C5 (amended).  One config's failure still neither cancels nor
blocks a sibling: a config whose channel is gone contributes a `(0, 0)`
scan that leaves the store untouched, so the remaining configs run exactly
as they would without it.  But the aggregate reports *every* config as
succeeded: `recover_single_config` returns a collected value (never an
exception) even for a dead location, and the success count tallies every
non-exception result — so a failed config is never reported as failed. -/
theorem recovery_aggregate_spec (db : DB) (env : Nat → Location)
    (t startup now : Nat) :
    (300 ≤ startup - t → (get_all_backup_configs db).isEmpty = false →
      (handle_downtime_recovery db env (some t) startup now).1 =
        some ((get_all_backup_configs db).length,
          (get_all_backup_configs db).length)) ∧
    (∀ (y : BackupConfig) (xs : List BackupConfig),
      (env y.id).channel_ok = false →
      run_recovery_tasks db (y :: xs) env t now =
        (Except.ok true :: (run_recovery_tasks db xs env t now).1,
          (run_recovery_tasks db xs env t now).2)) := by
  constructor
  · intro hoff hnonempty
    simp only [handle_downtime_recovery]
    rw [if_neg (by omega)]
    simp only [hnonempty, Bool.false_eq_true, if_false]
    rw [run_recovery_results, recovery_success_count_all_ok]
  · intro y xs h
    simp only [run_recovery_tasks, recover_single_config]
    rw [scan_history_bad_channel db (env y.id) y.thread_id y.author_id y.id
      (some (recovery_resume_point db y.id t)) now h]

/-- Message archived for config X in the C5 scenario. -/
def c5_mX : Message :=
  { id := 21, guild_id := 1, channel_id := 2, thread_id := none,
    author_id := 7, author_is_bot := false, content := "hi",
    created_at := 400,
    attachments := [{ filename := "a.png", size := 5, url := "u",
                      fetch_result := some "p" }] }

/-- Config Y, whose channel no longer exists, for the C5 scenario. -/
def c5_cfgY : BackupConfig :=
  { id := 2, guild_id := 1, channel_id := 3, thread_id := none,
    author_id := 8, title := none, enabled := true, created_at := 0,
    last_check_time := none }

/-- Store for the C5 scenario: X (valid location) and Y (gone). -/
def c5_db : DB :=
  { backup_configs := [c1_cfg, c5_cfgY], message_backups := [],
    file_backups := [], last_activity_time := some 0, next_config_id := 3,
    next_message_backup_id := 1, next_file_backup_id := 1 }

/-- Location environment of the C5 scenario: X's channel resolves and holds
one fresh message of X's author, Y's channel lookup fails. -/
def c5_env : Nat → Location := fun config_id =>
  if config_id == 1 then ⟨true, true, true, [some c5_mX]⟩
  else ⟨true, false, true, []⟩

/-- Claim C5, counterexample to the claim as stated: with X valid and Y's
channel deleted, recovery archives X's message (X succeeded with
archived count > 0) yet the aggregate is `(2 succeeded, 2 total)` — Y is
counted as succeeded, not reported as failed. -/
theorem recovery_aggregate_counterexample :
    (c5_env 2).channel_ok = false ∧
    (handle_downtime_recovery c5_db c5_env (some 0) 1000 2000).1 =
      some (2, 2) ∧
    (∃ mb ∈ (handle_downtime_recovery c5_db c5_env (some 0) 1000
        2000).2.message_backups, mb.message_id = 21 ∧ mb.config_id = 1) ∧
    (handle_downtime_recovery c5_db c5_env (some 0) 1000 2000).1 ≠
      some (1, 2) := by
  refine ⟨rfl, by rfl, ?_, by decide⟩
  refine ⟨{ id := 1, config_id := 1, message_id := 21, content := "hi",
            created_at := 400, backup_time := 2000,
            content_type := "channel" },
    ?_, rfl, rfl⟩
  show _ ∈ (handle_downtime_recovery c5_db c5_env (some 0) 1000
    2000).2.message_backups
  rw [show (handle_downtime_recovery c5_db c5_env (some 0) 1000
    2000).2.message_backups =
    [{ id := 1, config_id := 1, message_id := 21, content := "hi",
       created_at := 400, backup_time := 2000,
       content_type := "channel" }] from rfl]
  exact List.mem_singleton.mpr rfl

/-- Witness for `recovery_aggregate_spec` at a concrete input. -/
theorem recovery_aggregate_spec_witness :
    (300 ≤ 1000 - 0 ∧ (get_all_backup_configs c5_db).isEmpty = false) ∧
    (handle_downtime_recovery c5_db c5_env (some 0) 1000 2000).1 =
      some ((get_all_backup_configs c5_db).length,
        (get_all_backup_configs c5_db).length) :=
  ⟨⟨by decide, rfl⟩,
    (recovery_aggregate_spec c5_db c5_env 0 1000 2000).1 (by decide) rfl⟩

/-! ## Lemmas for the config-store invariant -/

theorem identity_shared (c c' : BackupConfig) (g ch : Nat) (t : Option Nat)
    (a : Nat) (hc : matches_identity c g ch t a = true)
    (hc' : matches_identity c' g ch t a = true) :
    same_identity c c' = true := by
  simp only [matches_identity, Bool.and_eq_true, beq_iff_eq] at hc hc'
  simp only [same_identity, matches_identity, Bool.and_eq_true, beq_iff_eq]
  rcases hc with ⟨⟨⟨h1, h2⟩, h3⟩, h4⟩
  rcases hc' with ⟨⟨⟨h1', h2'⟩, h3'⟩, h4'⟩
  exact ⟨⟨⟨by rw [h1', h1], by rw [h2', h2]⟩, by rw [h3', h3]⟩,
    by rw [h4', h4]⟩

theorem find_identity_unique (g ch : Nat) (t : Option Nat) (a : Nat) :
    ∀ (l : List BackupConfig) (cfg : BackupConfig),
      (l.Pairwise fun c c' => ¬ same_identity c c' = true) →
      cfg ∈ l → matches_identity cfg g ch t a = true →
      l.find? (fun c => matches_identity c g ch t a) = some cfg := by
  intro l
  induction l with
  | nil => intro cfg _ hmem _; simp at hmem
  | cons x xs ih =>
    intro cfg hpw hmem hm
    rcases List.pairwise_cons.mp hpw with ⟨hx, hpw'⟩
    by_cases hpx : matches_identity x g ch t a = true
    · simp only [List.find?, hpx]
      rcases List.mem_cons.mp hmem with rfl | hmem'
      · rfl
      · exact absurd (identity_shared x cfg g ch t a hpx hm) (hx cfg hmem')
    · have hpx' : matches_identity x g ch t a = false := by simpa using hpx
      simp only [List.find?, hpx']
      rcases List.mem_cons.mp hmem with rfl | hmem'
      · exact absurd hm hpx
      · exact ih cfg hpw' hmem' hm

theorem same_identity_reenable (i now : Nat) (title : Option String)
    (c c' : BackupConfig) :
    same_identity (if c.id == i then reenable_row title now c else c)
      (if c'.id == i then reenable_row title now c' else c') =
      same_identity c c' := by
  split <;> split <;> rfl

theorem same_identity_disable (i : Nat) (c c' : BackupConfig) :
    same_identity (if c.id == i then { c with enabled := false } else c)
      (if c'.id == i then { c' with enabled := false } else c') =
      same_identity c c' := by
  split <;> split <;> rfl

theorem create_preserves_unique (db : DB) (g ch : Nat) (t : Option Nat)
    (a : Nat) (title : Option String) (now : Nat)
    (h : unique_identity_rows db) :
    unique_identity_rows (create_backup_config db g ch t a title now).2 := by
  rcases hf : db.backup_configs.find? fun c => matches_identity c g ch t a
      with _ | e
  · simp only [create_backup_config, hf]
    show List.Pairwise _ (db.backup_configs ++ [_])
    rw [List.pairwise_append]
    refine ⟨h, by simp, ?_⟩
    intro c hc y hy
    simp only [List.mem_singleton] at hy
    subst hy
    have hfalse := List.find?_eq_none.mp hf c hc
    simp only [Bool.not_eq_true] at hfalse
    intro hcon
    simp only [same_identity, fresh_config_row, matches_identity,
      Bool.and_eq_true, beq_iff_eq] at hcon
    rcases hcon with ⟨⟨⟨h1, h2⟩, h3⟩, h4⟩
    simp only [matches_identity] at hfalse
    rw [← h1, ← h2, ← h3, ← h4] at hfalse
    simp at hfalse
  · simp only [create_backup_config, hf]
    split
    · exact h
    · show List.Pairwise _ (db.backup_configs.map _)
      refine List.Pairwise.map _ ?_ h
      intro c c' hcc
      rw [same_identity_reenable]
      exact hcc

theorem disable_preserves_unique (db : DB) (config_id : Nat)
    (h : unique_identity_rows db) :
    unique_identity_rows (disable_backup_config db config_id) := by
  unfold disable_backup_config unique_identity_rows
  refine List.Pairwise.map _ ?_ h
  intro c c' hcc
  rw [same_identity_disable]
  exact hcc

theorem unique_enabled_of_unique (db : DB) (h : unique_identity_rows db) :
    unique_enabled_rows db :=
  List.Pairwise.sublist (List.filter_sublist _) h

theorem apply_cfg_ops_unique : ∀ (ops : List CfgOp) (db : DB),
    unique_identity_rows db → unique_identity_rows (apply_cfg_ops db ops) := by
  intro ops
  induction ops with
  | nil => intro db h; exact h
  | cons op rest ih =>
    intro db h
    show unique_identity_rows (apply_cfg_ops (apply_cfg_op db op) rest)
    apply ih
    rcases op with ⟨g, c, t, a, title, now⟩ | ⟨cid⟩
    · exact create_preserves_unique db g c t a title now h
    · exact disable_preserves_unique db cid h

/-- Claim C7.  `create` is idempotent per identity: with at most one row
per identity tuple, an existing enabled row is returned unchanged; a
disabled row is re-enabled in place (same id) with nothing else modified;
a missing identity gets a fresh inserted row; and after any sequence of
`create` / `disable` operations from an empty store there is at most one
row — and in particular at most one enabled row — per identity. -/
theorem config_create_idempotent_spec :
    (∀ (db : DB) (g ch : Nat) (t : Option Nat) (a : Nat)
      (title : Option String) (now : Nat) (cfg : BackupConfig),
      unique_identity_rows db → cfg ∈ db.backup_configs →
      matches_identity cfg g ch t a = true →
      (cfg.enabled = true →
        create_backup_config db g ch t a title now = (some cfg.id, db)) ∧
      (cfg.enabled = false →
        create_backup_config db g ch t a title now =
          (some cfg.id,
            { db with
              backup_configs := db.backup_configs.map fun c =>
                if c.id == cfg.id then reenable_row title now c
                else c }))) ∧
    (∀ (db : DB) (g ch : Nat) (t : Option Nat) (a : Nat)
      (title : Option String) (now : Nat),
      (∀ c ∈ db.backup_configs, matches_identity c g ch t a = false) →
      create_backup_config db g ch t a title now =
        (some db.next_config_id,
          { db with
            backup_configs := db.backup_configs ++
              [fresh_config_row db.next_config_id g ch t a title now]
            next_config_id := db.next_config_id + 1 })) ∧
    (∀ ops : List CfgOp,
      unique_identity_rows (apply_cfg_ops empty_db ops) ∧
      unique_enabled_rows (apply_cfg_ops empty_db ops)) := by
  refine ⟨?_, ?_, ?_⟩
  · intro db g ch t a title now cfg huniq hmem hm
    have hfind := find_identity_unique g ch t a db.backup_configs cfg huniq
      hmem hm
    constructor
    · intro hen
      simp only [create_backup_config, hfind, hen, if_true]
    · intro hen
      simp only [create_backup_config, hfind, hen, Bool.false_eq_true,
        if_false]
  · intro db g ch t a title now hnone
    unfold create_backup_config
    rw [List.find?_eq_none.mpr (by
      intro c hc
      simp [hnone c hc])]
  · intro ops
    have h := apply_cfg_ops_unique ops empty_db (by
      show List.Pairwise _ ([] : List BackupConfig)
      exact List.Pairwise.nil)
    exact ⟨h, unique_enabled_of_unique _ h⟩

/-- Witness for `config_create_idempotent_spec` at concrete inputs: the
enabled config `c1_cfg` is returned unchanged, and a `create` after
`create` + `disable` + `create` from empty keeps one row per identity. -/
theorem config_create_idempotent_spec_witness :
    (unique_identity_rows c1_db ∧ c1_cfg ∈ c1_db.backup_configs ∧
      matches_identity c1_cfg 1 2 none 7 = true ∧ c1_cfg.enabled = true) ∧
    create_backup_config c1_db 1 2 none 7 none 5 = (some c1_cfg.id, c1_db) := by
  have h := ((config_create_idempotent_spec.1 c1_db 1 2 none 7 none 5 c1_cfg
    (by
      show List.Pairwise _ [c1_cfg]
      exact List.pairwise_singleton _ _)
    (by simp [c1_db]) (by decide))).1 rfl
  exact ⟨⟨by
      show List.Pairwise _ [c1_cfg]
      exact List.pairwise_singleton _ _,
    by simp [c1_db], by decide, rfl⟩, h⟩

end PenPreserve
